import Mathlib

/-!
Shallow embedding of `cfdnsupdater` (Go): a daemon that periodically
resolves the public IP of the machine from an HTTP service (`getIP`), then
reconciles a single Cloudflare "A" record for a configured host
(`updateHost`), driven by `updateHostLoop`, with startup flag validation
in `main`.  External effects (the HTTP client and the Cloudflare API) are
modelled as environments of call results; writes and counter increments
are collected explicitly so that frame and counting properties can be
stated.
-/

namespace CFDNS

/-- Errors returned by Go functions are modelled as their message strings;
`Option GoError` stands for the nilable Go `error` return value. -/
abbrev GoError := String

/-- Embeds the Go struct `CFUpdateConfig` (cfdnsupdater.go lines 35-41). -/
structure CFUpdateConfig where
  Zone : String
  Host : String
  Email : String
  ApiKey : String
  IPService : String
deriving Repr, DecidableEq

/-! ## getIP -/

/-- Models the Go function `unicode.IsSpace` (the predicate used by
`strings.TrimSpace`): the Unicode White_Space code points. -/
def isSpaceGo (c : Char) : Bool :=
  c ∈ ['\t', '\n', '\x0b', '\x0c', '\r', ' ', '\u0085', '\u00a0',
       '\u1680', '\u2000', '\u2001', '\u2002', '\u2003', '\u2004',
       '\u2005', '\u2006', '\u2007', '\u2008', '\u2009', '\u200a',
       '\u2028', '\u2029', '\u202f', '\u205f', '\u3000']

/-- Models the Go function `strings.TrimSpace`: drops leading and trailing
White_Space characters. -/
def trimSpace (s : String) : String :=
  ⟨((s.data.dropWhile isSpaceGo).reverse.dropWhile isSpaceGo).reverse⟩

/-- Embeds the parts of the Go `http.Response` that `getIP` reads:
`res.StatusCode`, `res.Status`, and the result of `io.ReadAll(res.Body)`
(reading the body stream can itself fail). -/
structure HTTPResponse where
  StatusCode : Nat
  Status : String
  Body : Except GoError String
deriving Repr

/-- Environment of `getIP`: the results of the fallible calls it makes,
in source order: `http.NewRequest` (cfdnsupdater.go line 98) and
`client.Do(req)` (line 103). -/
structure GetIPEnv where
  newRequestResult : Except GoError Unit
  doResult : Except GoError HTTPResponse
deriving Repr

/-- Embeds `getIP` (cfdnsupdater.go lines 89-118).  Returns the pair
`(string, error)` of the Go signature.  The transport setup and the
User-Agent header have no effect on the returned value and are absorbed
into the environment. -/
def getIP (env : GetIPEnv) : String × Option GoError :=
  match env.newRequestResult with
  | .error e => ("", some e)
  | .ok _ =>
    match env.doResult with
    | .error e => ("", some e)
    | .ok res =>
      if res.StatusCode ≠ 200 then
        ("", some ("Unexpected HTTP status " ++ res.Status))
      else
        match res.Body with
        | .error e => ("", some e)
        | .ok b => (trimSpace b, none)

/-! ## Cloudflare API model -/

/-- Embeds the fields of `cloudflare.DNSRecord` that `updateHost` reads
(`records[0].ID`, `records[0].Content`) together with the name/type the
listing filters on. -/
structure DNSRecord where
  ID : String := ""
  Name : String := ""
  «Type» : String := ""
  Content : String := ""
deriving Repr, DecidableEq

/-- Embeds `cloudflare.ListDNSRecordsParams` as constructed at
cfdnsupdater.go line 134: only `Name` and `Type` are set. -/
structure ListDNSRecordsParams where
  Name : String := ""
  «Type» : String := ""
deriving Repr, DecidableEq

/-- Embeds `cloudflare.CreateDNSRecordParams` as used at cfdnsupdater.go
lines 143-147: the call sets `Name`, `Type` and `Content`; every other
field keeps its Go zero value (modelled by the `""` defaults). -/
structure CreateDNSRecordParams where
  Name : String := ""
  «Type» : String := ""
  Content : String := ""
deriving Repr, DecidableEq

/-- Embeds `cloudflare.UpdateDNSRecordParams` as used at cfdnsupdater.go
lines 162-165: the call sets `ID` and `Content` only; `Name` and `Type`
keep their Go zero value `""` (modelled by the defaults), so an update
changes nothing but the content field. -/
structure UpdateDNSRecordParams where
  ID : String := ""
  Name : String := ""
  «Type» : String := ""
  Content : String := ""
deriving Repr, DecidableEq

/-- Environment for `updateHost`: the result each Cloudflare API call
would return, keyed by the arguments the code passes.  `newResult`
models `cloudflare.New`, `zoneIDByName` models `api.ZoneIDByName`,
`listDNSRecords` models `api.ListDNSRecords` (its second return value,
the result info, is ignored by the code), and `createDNSRecord` /
`updateDNSRecord` model the two write calls. -/
structure CFEnv where
  newResult : Except GoError Unit
  zoneIDByName : String → Except GoError String
  listDNSRecords : String → ListDNSRecordsParams → Except GoError (List DNSRecord)
  createDNSRecord : String → CreateDNSRecordParams → Except GoError DNSRecord
  updateDNSRecord : String → UpdateDNSRecordParams → Except GoError DNSRecord

/-- Result of one `updateHost` run: the returned `error`, the create and
update calls issued (in order), and the value of the Prometheus counter
`updateCount` after the run, given its value `counter` before. -/
structure RunResult where
  err : Option GoError
  creates : List CreateDNSRecordParams
  updates : List UpdateDNSRecordParams
  counter : Nat
deriving Repr, DecidableEq

/-- Embeds `updateHost` (cfdnsupdater.go lines 120-182).  The `switch
len(records)` is translated as a match on the list shape.  In the
`default` branch (two or more records) the Go code executes `return err`
where `err` is the error of `api.ListDNSRecords`, already known to be
nil on that path, so the branch returns nil after logging. -/
def updateHost (config : CFUpdateConfig) (ip : String) (env : CFEnv)
    (counter : Nat) : RunResult :=
  match env.newResult with
  | .error e => ⟨some e, [], [], counter⟩
  | .ok _ =>
    match env.zoneIDByName config.Zone with
    | .error e => ⟨some e, [], [], counter⟩
    | .ok zoneID =>
      let hostrec : ListDNSRecordsParams := { Name := config.Host, «Type» := "A" }
      match env.listDNSRecords zoneID hostrec with
      | .error e => ⟨some e, [], [], counter⟩
      | .ok records =>
        match records with
        | [] =>
          let p : CreateDNSRecordParams :=
            { Name := config.Host, «Type» := "A", Content := ip }
          match env.createDNSRecord zoneID p with
          | .error e => ⟨some e, [p], [], counter⟩
          | .ok _ => ⟨none, [p], [], counter + 1⟩
        | [r] =>
          if r.Content = ip then
            ⟨none, [], [], counter⟩
          else
            let p : UpdateDNSRecordParams := { ID := r.ID, Content := ip }
            match env.updateDNSRecord zoneID p with
            | .error e => ⟨some e, [], [p], counter⟩
            | .ok _ => ⟨none, [], [p], counter + 1⟩
        | _ :: _ :: _ => ⟨none, [], [], counter⟩

/-! ## updateHostLoop -/

/-- Result of one iteration of the loop body in `updateHostLoop`. -/
structure CycleResult where
  ip : String
  ipErr : Option GoError
  reconcile : RunResult
deriving Repr, DecidableEq

/-- Embeds one iteration of the loop body of `updateHostLoop`
(cfdnsupdater.go lines 186-199): `getIP` is called first; on failure the
error is only logged, and `updateHost` is invoked unconditionally with
whatever string `getIP` returned (the empty string on failure). -/
def updateHostCycle (config : CFUpdateConfig) (ipEnv : GetIPEnv)
    (cfEnv : CFEnv) (counter : Nat) : CycleResult :=
  let (ip, ipErr) := getIP ipEnv
  let res := updateHost config ip cfEnv counter
  ⟨ip, ipErr, res⟩

/-! ## main: startup validation -/

/-- Models the Go function `strings.HasSuffix(s, suffix)`:
`len(s) >= len(suffix) && s[len(s)-len(suffix):] == suffix`, on the
character lists of the strings. -/
def hasSuffix (s suffix : String) : Bool :=
  decide (suffix.data.length ≤ s.data.length) &&
    decide (s.data.drop (s.data.length - suffix.data.length) = suffix.data)

/-- The flag values `main` validates after parsing (cfdnsupdater.go
lines 239-262).  `urlPref` embeds the Go variable `urlprefix`. -/
structure MainFlags where
  zone : String
  host : String
  email : String
  apiKey : String
  urlPref : String
deriving Repr, DecidableEq

/-- Outcome of the startup sequence after flag parsing: either the
process exits with the given status code, or it reaches
`http.ListenAndServe`. -/
inductive MainOutcome where
  | exit (code : Nat)
  | startServer
deriving Repr, DecidableEq

/-- Embeds the validation sequence of `main` (cfdnsupdater.go lines
239-262), in source order: URL prefix shape, zone set, host set, host
ends with zone, email set, API key set; each failure calls
`os.Exit(1)`.  Only when every check passes does control reach the
HTTP server startup (lines 264-280). -/
def mainValidate (f : MainFlags) : MainOutcome :=
  if 0 < f.urlPref.length ∧ f.urlPref.front ≠ '/' then .exit 1
  else if f.zone = "" then .exit 1
  else if f.host = "" then .exit 1
  else if ¬ hasSuffix f.host f.zone then .exit 1
  else if f.email = "" then .exit 1
  else if f.apiKey = "" then .exit 1
  else .startServer

end CFDNS

namespace CFDNS

/-! ## Concrete fixtures used by witnesses -/

/-- A concrete valid configuration. -/
def cfg0 : CFUpdateConfig :=
  ⟨"example.com", "foo.example.com", "me@example.com", "secret", "https://ip.example/"⟩

/-- A concrete A record for the configured host with the given content. -/
def arec (id content : String) : DNSRecord :=
  { ID := id, Name := "foo.example.com", «Type» := "A", Content := content }

/-- A Cloudflare environment where every call succeeds and the listing
returns the given records. -/
def envOK (records : List DNSRecord) : CFEnv where
  newResult := .ok ()
  zoneIDByName := fun _ => .ok "zone-id-1"
  listDNSRecords := fun _ _ => .ok records
  createDNSRecord := fun _ p => .ok { Name := p.Name, «Type» := p.«Type», Content := p.Content }
  updateDNSRecord := fun _ p => .ok { ID := p.ID, Content := p.Content }

/-! ## Theorems -/

/-- C1 (evidence of divergence): in every state where the listing for the
configured host and type "A" succeeds with two or more records,
`updateHost` issues no create or update call and leaves the counter
unchanged, but — contrary to the claim — returns nil: the `default`
branch executes `return err` where `err` is the nil error of
`api.ListDNSRecords`. -/
theorem updateHost_two_records_silent_nil
    (config : CFUpdateConfig) (ip : String) (env : CFEnv) (n : Nat)
    (zid : String) (records : List DNSRecord)
    (hnew : env.newResult = .ok ())
    (hzone : env.zoneIDByName config.Zone = .ok zid)
    (hlist : env.listDNSRecords zid { Name := config.Host, «Type» := "A" } = .ok records)
    (hlen : 2 ≤ records.length) :
    updateHost config ip env n = ⟨none, [], [], n⟩ := by
  match records, hlen with
  | a :: b :: t, _ =>
    simp only [updateHost, hnew, hzone, hlist]

/-- Witness for C1: a concrete state with two records where `updateHost`
returns nil and performs no writes. -/
theorem updateHost_two_records_silent_nil_witness :
    updateHost cfg0 "203.0.113.7"
        (envOK [arec "r1" "198.51.100.1", arec "r2" "198.51.100.2"]) 5 =
      ⟨none, [], [], 5⟩ :=
  updateHost_two_records_silent_nil cfg0 "203.0.113.7"
    (envOK [arec "r1" "198.51.100.1", arec "r2" "198.51.100.2"]) 5
    "zone-id-1" [arec "r1" "198.51.100.1", arec "r2" "198.51.100.2"]
    rfl rfl rfl (by decide)

/-- C2: in every state where the listing for the configured host and type
"A" succeeds with zero records, `updateHost` issues exactly one create
call with the configured hostname, type "A" and the resolved IP (and no
update call), and when that create succeeds it returns nil and
increments the counter exactly once. -/
theorem updateHost_create_on_zero_records
    (config : CFUpdateConfig) (ip : String) (env : CFEnv) (n : Nat)
    (zid : String)
    (hnew : env.newResult = .ok ())
    (hzone : env.zoneIDByName config.Zone = .ok zid)
    (hlist : env.listDNSRecords zid { Name := config.Host, «Type» := "A" } = .ok []) :
    (updateHost config ip env n).creates =
        [{ Name := config.Host, «Type» := "A", Content := ip }] ∧
    (updateHost config ip env n).updates = [] ∧
    ∀ rec, env.createDNSRecord zid { Name := config.Host, «Type» := "A", Content := ip } =
        .ok rec →
      updateHost config ip env n =
        ⟨none, [{ Name := config.Host, «Type» := "A", Content := ip }], [], n + 1⟩ := by
  simp only [updateHost, hnew, hzone, hlist]
  rcases hc : env.createDNSRecord zid { Name := config.Host, «Type» := "A", Content := ip }
      with e | rec
  · exact ⟨rfl, rfl, fun rec2 h => by cases h⟩
  · exact ⟨rfl, rfl, fun rec2 _ => rfl⟩

/-- Witness for C2: with an empty listing and a succeeding create call,
`updateHost` creates the record and bumps the counter from 5 to 6. -/
theorem updateHost_create_on_zero_records_witness :
    (updateHost cfg0 "203.0.113.7" (envOK []) 5).creates =
        [{ Name := "foo.example.com", «Type» := "A", Content := "203.0.113.7" }] ∧
    (updateHost cfg0 "203.0.113.7" (envOK []) 5).updates = [] ∧
    updateHost cfg0 "203.0.113.7" (envOK []) 5 =
      ⟨none, [{ Name := "foo.example.com", «Type» := "A", Content := "203.0.113.7" }],
        [], 6⟩ := by
  have h := updateHost_create_on_zero_records cfg0 "203.0.113.7" (envOK []) 5
    "zone-id-1" rfl rfl rfl
  exact ⟨h.1, h.2.1, h.2.2 _ rfl⟩

/-- C3: in every state where the listing succeeds with exactly one record
whose content already equals the resolved IP, `updateHost` issues no
create or update call, leaves the counter unchanged, and returns nil. -/
theorem updateHost_noop_on_match
    (config : CFUpdateConfig) (ip : String) (env : CFEnv) (n : Nat)
    (zid : String) (r : DNSRecord)
    (hnew : env.newResult = .ok ())
    (hzone : env.zoneIDByName config.Zone = .ok zid)
    (hlist : env.listDNSRecords zid { Name := config.Host, «Type» := "A" } = .ok [r])
    (hip : r.Content = ip) :
    updateHost config ip env n = ⟨none, [], [], n⟩ := by
  simp only [updateHost, hnew, hzone, hlist]
  simp [hip]

/-- Witness for C3: one matching record, nothing written, counter stays 5. -/
theorem updateHost_noop_on_match_witness :
    updateHost cfg0 "203.0.113.7" (envOK [arec "r1" "203.0.113.7"]) 5 =
      ⟨none, [], [], 5⟩ :=
  updateHost_noop_on_match cfg0 "203.0.113.7" (envOK [arec "r1" "203.0.113.7"]) 5
    "zone-id-1" (arec "r1" "203.0.113.7") rfl rfl rfl rfl

/-- C4: in every state where the listing succeeds with exactly one record
whose content differs from the resolved IP, `updateHost` issues exactly
one update call targeting the ID of that record whose parameters set only the
content field (to the resolved IP; `Name` and `Type` stay at their zero
value), and when that update succeeds it returns nil and increments the
counter exactly once. -/
theorem updateHost_update_on_mismatch
    (config : CFUpdateConfig) (ip : String) (env : CFEnv) (n : Nat)
    (zid : String) (r : DNSRecord)
    (hnew : env.newResult = .ok ())
    (hzone : env.zoneIDByName config.Zone = .ok zid)
    (hlist : env.listDNSRecords zid { Name := config.Host, «Type» := "A" } = .ok [r])
    (hip : r.Content ≠ ip) :
    (updateHost config ip env n).creates = [] ∧
    (updateHost config ip env n).updates = [{ ID := r.ID, Content := ip }] ∧
    (UpdateDNSRecordParams.Name { ID := r.ID, Content := ip } = "" ∧
      UpdateDNSRecordParams.«Type» { ID := r.ID, Content := ip } = "") ∧
    ∀ rec, env.updateDNSRecord zid { ID := r.ID, Content := ip } = .ok rec →
      updateHost config ip env n = ⟨none, [], [{ ID := r.ID, Content := ip }], n + 1⟩ := by
  simp only [updateHost, hnew, hzone, hlist, if_neg hip]
  rcases hu : env.updateDNSRecord zid { ID := r.ID, Content := ip } with e | rec
  · exact ⟨rfl, rfl, by constructor <;> trivial, fun rec2 h => by cases h⟩
  · exact ⟨rfl, rfl, by constructor <;> trivial, fun rec2 _ => rfl⟩

/-- C5: whenever the IP-discovery request goes through and the endpoint
answers with status 200 and a readable body, `getIP` returns exactly the
body with surrounding whitespace trimmed (and a nil error); no other
transformation or format validation is applied. -/
theorem getIP_trims_body_on_200
    (env : GetIPEnv) (res : HTTPResponse) (b : String)
    (hreq : env.newRequestResult = .ok ())
    (hdo : env.doResult = .ok res)
    (hst : res.StatusCode = 200)
    (hbody : res.Body = .ok b) :
    getIP env = (trimSpace b, none) := by
  simp [getIP, hreq, hdo, hst, hbody]

/-- Witness for C5: a mock endpoint returning body
`"  203.0.113.7\n"` with status 200 yields `"203.0.113.7"`. -/
theorem getIP_trims_body_on_200_witness :
    getIP ⟨.ok (), .ok ⟨200, "200 OK", .ok "  203.0.113.7\n"⟩⟩ =
      ("203.0.113.7", none) := by
  have h := getIP_trims_body_on_200
    ⟨.ok (), .ok ⟨200, "200 OK", .ok "  203.0.113.7\n"⟩⟩
    ⟨200, "200 OK", .ok "  203.0.113.7\n"⟩ "  203.0.113.7\n" rfl rfl rfl rfl
  exact h.trans (by decide)

/-- C6: whenever the IP-discovery endpoint answers with a status other
than 200, `getIP` returns the empty string and an error carrying the
status text of the response; moreover `getIP` returns a nil error only when
the response status was exactly 200. -/
theorem getIP_error_on_non200
    (env : GetIPEnv) (res : HTTPResponse)
    (hreq : env.newRequestResult = .ok ())
    (hdo : env.doResult = .ok res)
    (hst : res.StatusCode ≠ 200) :
    getIP env = ("", some ("Unexpected HTTP status " ++ res.Status)) ∧
    ∀ env2 : GetIPEnv, (getIP env2).2 = none →
      ∃ res2, env2.doResult = .ok res2 ∧ res2.StatusCode = 200 := by
  constructor
  · simp [getIP, hreq, hdo, hst]
  · intro env2 hnone
    rcases h2 : env2.doResult with e | res2
    · rcases h1 : env2.newRequestResult with e1 | u1 <;>
        simp [getIP, h1, h2] at hnone
    · refine ⟨res2, rfl, ?_⟩
      by_contra hne
      rcases h1 : env2.newRequestResult with e1 | u1 <;>
        simp [getIP, h1, h2, hne] at hnone

/-- Witness for C6: a 404 response produces the empty IP and the error
message carrying the status text "404 Not Found". -/
theorem getIP_error_on_non200_witness :
    getIP ⟨.ok (), .ok ⟨404, "404 Not Found", .ok "irrelevant"⟩⟩ =
      ("", some ("Unexpected HTTP status " ++ "404 Not Found")) :=
  (getIP_error_on_non200
    ⟨.ok (), .ok ⟨404, "404 Not Found", .ok "irrelevant"⟩⟩
    ⟨404, "404 Not Found", .ok "irrelevant"⟩ rfl rfl (by decide)).1

/-- C7: one iteration of the update loop invokes the reconciler even when
IP resolution failed: whenever `getIP` reports an error, `updateHost` is
still called, with the (possibly empty) resolver result string as the
IP argument, and the reconcile outcome of the cycle is exactly the outcome of that
outcome. -/
theorem cycle_reconciles_despite_resolver_failure
    (config : CFUpdateConfig) (ipEnv : GetIPEnv) (cfEnv : CFEnv) (n : Nat)
    (e : GoError) (hfail : (getIP ipEnv).2 = some e) :
    updateHostCycle config ipEnv cfEnv n =
      ⟨(getIP ipEnv).1, some e, updateHost config (getIP ipEnv).1 cfEnv n⟩ := by
  have h : updateHostCycle config ipEnv cfEnv n =
      ⟨(getIP ipEnv).1, (getIP ipEnv).2,
        updateHost config (getIP ipEnv).1 cfEnv n⟩ := rfl
  rw [h, hfail]

/-- Witness for C7: a 500 response makes the resolver fail with an empty
result string, and the cycle still reconciles with that empty string. -/
theorem cycle_reconciles_despite_resolver_failure_witness :
    updateHostCycle cfg0 ⟨.ok (), .ok ⟨500, "500 Internal Server Error", .ok ""⟩⟩
        (envOK []) 3 =
      ⟨(getIP ⟨.ok (), .ok ⟨500, "500 Internal Server Error", .ok ""⟩⟩).1,
        some "Unexpected HTTP status 500 Internal Server Error",
        updateHost cfg0
          (getIP ⟨.ok (), .ok ⟨500, "500 Internal Server Error", .ok ""⟩⟩).1
          (envOK []) 3⟩ :=
  cycle_reconciles_despite_resolver_failure cfg0
    ⟨.ok (), .ok ⟨500, "500 Internal Server Error", .ok ""⟩⟩ (envOK []) 3
    "Unexpected HTTP status 500 Internal Server Error" (by decide)

/-- C8: any configuration with an empty zone, host, email or API key,
with a host that does not end with the zone name, or with a non-empty
URL prefix not starting with a slash, makes startup validation exit the
process with status 1 before the HTTP server is started; and a host
ending with the zone name, such as "foo.example.com" with zone
"example.com", passes the host/zone check. -/
theorem mainValidate_rejects_bad_flags
    (f : MainFlags)
    (hbad : f.zone = "" ∨ f.host = "" ∨ f.email = "" ∨ f.apiKey = "" ∨
      hasSuffix f.host f.zone = false ∨
      (0 < f.urlPref.length ∧ f.urlPref.front ≠ '/')) :
    mainValidate f = .exit 1 ∧ hasSuffix "foo.example.com" "example.com" = true := by
  refine ⟨?_, by decide⟩
  unfold mainValidate
  split_ifs with h1 h2 h3 h4 h5 h6 <;> try rfl
  rcases hbad with h | h | h | h | h | h
  · exact absurd h h2
  · exact absurd h h3
  · exact absurd h h5
  · exact absurd h h6
  · simp [h] at h4
  · exact absurd h h1

/-- Witness for C8: an empty zone makes validation exit with status 1,
while "foo.example.com" passes the suffix check against "example.com". -/
theorem mainValidate_rejects_bad_flags_witness :
    mainValidate ⟨"", "foo.example.com", "me@example.com", "secret", ""⟩ = .exit 1 ∧
      hasSuffix "foo.example.com" "example.com" = true :=
  mainValidate_rejects_bad_flags
    ⟨"", "foo.example.com", "me@example.com", "secret", ""⟩ (Or.inl rfl)

/-- Counter delta of `updateHost`: the counter moves by exactly one when
the run returned nil after issuing a write call, and is unchanged in
every other case.  Shared support lemma for the counter invariant. -/
theorem updateHost_counter_spec
    (config : CFUpdateConfig) (ip : String) (env : CFEnv) (n : Nat) :
    (updateHost config ip env n).counter =
      n + (if (updateHost config ip env n).err = none ∧
              ((updateHost config ip env n).creates ≠ [] ∨
                (updateHost config ip env n).updates ≠ [])
            then 1 else 0) := by
  rcases hnew : env.newResult with e | u
  · simp [updateHost, hnew]
  rcases hz : env.zoneIDByName config.Zone with e | zid
  · simp [updateHost, hnew, hz]
  rcases hl : env.listDNSRecords zid { Name := config.Host, «Type» := "A" } with e | records
  · simp [updateHost, hnew, hz, hl]
  rcases records with _ | ⟨r, _ | ⟨b, t⟩⟩
  · rcases hc : env.createDNSRecord zid { Name := config.Host, «Type» := "A", Content := ip }
        with e | rec <;>
      simp [updateHost, hnew, hz, hl, hc]
  · by_cases h : r.Content = ip
    · simp [updateHost, hnew, hz, hl, h]
    · rcases hu : env.updateDNSRecord zid { ID := r.ID, Content := ip } with e | rec <;>
        simp [updateHost, hnew, hz, hl, h, hu]
  · simp [updateHost, hnew, hz, hl]

/-- C9: the update counter never decreases: one `updateHost` run moves it
up by at most one, and by exactly one precisely when the run returned
nil after issuing a write (create or change) call — zero on a no-op
match, on every error path and on the silent multi-record path; the
counter change of a whole loop cycle is exactly that of its `updateHost`
call (`getIP` never touches the counter). -/
theorem updateHost_counter_increment
    (config : CFUpdateConfig) (ip : String) (env : CFEnv) (ipEnv : GetIPEnv) (n : Nat) :
    n ≤ (updateHost config ip env n).counter ∧
    (updateHost config ip env n).counter ≤ n + 1 ∧
    ((updateHost config ip env n).counter = n + 1 ↔
      (updateHost config ip env n).err = none ∧
        ((updateHost config ip env n).creates ≠ [] ∨
          (updateHost config ip env n).updates ≠ [])) ∧
    (updateHostCycle config ipEnv env n).reconcile =
      updateHost config (getIP ipEnv).1 env n := by
  have h := updateHost_counter_spec config ip env n
  by_cases hc : (updateHost config ip env n).err = none ∧
      ((updateHost config ip env n).creates ≠ [] ∨
        (updateHost config ip env n).updates ≠ [])
  · rw [if_pos hc] at h
    exact ⟨by omega, by omega, ⟨fun _ => hc, fun _ => h⟩, rfl⟩
  · rw [if_neg hc] at h
    exact ⟨by omega, by omega, ⟨fun heq => by omega, fun hr => absurd hr hc⟩, rfl⟩

/-- C10: the startup host/zone check is a plain character-suffix test:
every host exactly equal to the zone passes, and every host string that
merely ends with the zone characters — subdomain or not — passes the
whole validation when the remaining flags are well formed. -/
theorem hostZone_plain_suffix_check :
    (∀ z : String, hasSuffix z z = true) ∧
    (∀ h z : String, hasSuffix h z = true → z ≠ "" → h ≠ "" →
      mainValidate ⟨z, h, "me@example.com", "secret", ""⟩ = .startServer) := by
  constructor
  · intro z
    simp [hasSuffix, Nat.sub_self, List.drop_zero]
  · intro h z hsuf hz hh
    simp [mainValidate, hz, hh, hsuf]

/-- Witness for C10: host "notexample.com" is not a subdomain of zone
"example.com", yet validation passes; a host equal to its zone passes
the suffix check. -/
theorem hostZone_plain_suffix_check_witness :
    hasSuffix "example.com" "example.com" = true ∧
    mainValidate ⟨"example.com", "notexample.com", "me@example.com", "secret", ""⟩ =
      .startServer :=
  ⟨hostZone_plain_suffix_check.1 "example.com",
   hostZone_plain_suffix_check.2 "notexample.com" "example.com"
     (by decide) (by decide) (by decide)⟩

/-- Witness for C4: one stale record, exactly one update call to its ID,
counter goes from 5 to 6 and the result is nil. -/
theorem updateHost_update_on_mismatch_witness :
    (updateHost cfg0 "203.0.113.7" (envOK [arec "r1" "198.51.100.1"]) 5).creates = [] ∧
    (updateHost cfg0 "203.0.113.7" (envOK [arec "r1" "198.51.100.1"]) 5).updates =
        [{ ID := "r1", Content := "203.0.113.7" }] ∧
    updateHost cfg0 "203.0.113.7" (envOK [arec "r1" "198.51.100.1"]) 5 =
      ⟨none, [], [{ ID := "r1", Content := "203.0.113.7" }], 6⟩ := by
  have h := updateHost_update_on_mismatch cfg0 "203.0.113.7"
    (envOK [arec "r1" "198.51.100.1"]) 5 "zone-id-1" (arec "r1" "198.51.100.1")
    rfl rfl rfl (by decide)
  exact ⟨h.1, h.2.1, h.2.2.2 _ rfl⟩

end CFDNS
